import Mathlib

/-!
Shallow embedding of the hive repository's service lifecycle and `fs` module
(src/hive-core/src/lua/fs.rs, src/hive-core/src/service.rs,
src/hive-core/src/service/mod.rs, src/hive-server/src/error.rs), with theorems
checking the natural-language specification against the code.
-/

namespace Hive

/-- Host I/O error payloads (std/tokio `io::Error` kinds that the embedded code
can observe). -/
inductive IoErr
  | unexpectedEof
  | other (msg : String)
deriving DecidableEq, Repr

/-- Error kinds surfaced by the `fs` module (src/hive-core/src/lua/fs.rs): lua
errors raised by the module, tagged per the repository's error surface. -/
inductive Err
  | permissionDenied
  | invalidOpenMode
  | badArgument (fname : String) (pos : Nat)
  | schemeNotSupported (scheme : String)
  | cannotModifySource
  | ioErr (e : IoErr)
deriving DecidableEq, Repr

/-- Permission atoms, from the spec's bit-exact interface (crate::permission is
referenced by src/hive-core/src/lua/fs.rs; paths are modelled as strings). -/
inductive Permission
  | read (path : String)
  | write (path : String)
deriving DecidableEq, Repr

/-- Modelled from the spec: `PermissionSet::check` (crate::permission is not
among the provided sources). The spec says a Permission Set is an immutable set
of atoms and check is a pure predicate over the set, with `PermissionDenied`
surfaced on failure; the set is modelled as its membership predicate. -/
def PermissionSet : Type := Permission → Bool

/-- Modelled from the spec: the check consults the set and fails with
`PermissionDenied` exactly when the atom is not granted. -/
def PermissionSet.check (s : PermissionSet) (p : Permission) : Except Err Unit :=
  if s p then .ok () else .error .permissionDenied

/-- Open modes, from `OpenMode` in src/hive-core/src/lua/fs.rs. -/
inductive OpenMode
  | Read
  | Write
  | Append
  | ReadWrite
  | ReadWriteNew
  | ReadAppend
deriving DecidableEq, Repr

/-- The mode string accepted by `OpenMode::from_lua` for each mode. -/
def OpenMode.toStr : OpenMode → String
  | .Read => "r"
  | .Write => "w"
  | .Append => "a"
  | .ReadWrite => "r+"
  | .ReadWriteNew => "w+"
  | .ReadAppend => "a+"

/-- `OpenMode::from_lua` (src/hive-core/src/lua/fs.rs lines 77-94): a missing
mode defaults to `r`; an unrecognized mode string is an "invalid open mode"
lua error. -/
def OpenMode.from_lua (mode : Option String) : Except Err OpenMode :=
  match mode with
  | some m =>
    if m = "r" then .ok .Read
    else if m = "w" then .ok .Write
    else if m = "a" then .ok .Append
    else if m = "r+" then .ok .ReadWrite
    else if m = "w+" then .ok .ReadWriteNew
    else if m = "a+" then .ok .ReadAppend
    else .error .invalidOpenMode
  | none => .ok .Read

/-- Filesystem syscalls issued by the `fs` module, recorded for the traces. -/
inductive Syscall
  | openFile (path : String) (mode : OpenMode)
  | sourceGet (path : String)
  | createDir (path : String)
  | createDirAll (path : String)
  | metadata (path : String)
  | removeDir (path : String)
  | removeDirAll (path : String)
  | removeFile (path : String)
deriving DecidableEq, Repr

/-- Observable events of one `fs` operation: a permission-set consultation with
its atom, a filesystem syscall, or the registration of a new file object into
the current resource context (`context_register`). -/
inductive Event
  | check (p : Permission)
  | sys (s : Syscall)
  | registerFile
deriving DecidableEq, Repr

/-- Whether an event is a filesystem syscall. -/
def Event.isSys : Event → Bool
  | .sys _ => true
  | _ => false

/-- Helper for `parse_path`: rust's `str::split_once(':')` on a char list. -/
def splitOnceAux : List Char → Option (List Char × List Char)
  | [] => none
  | c :: rest =>
    if c = ':' then some ([], rest)
    else
      match splitOnceAux rest with
      | some (l, r) => some (c :: l, r)
      | none => none

/-- `parse_path` (src/hive-core/src/lua/fs.rs lines 432-435): split at the first
colon; a path with no colon is a `local` path. Paths are modelled as valid
UTF-8 strings. -/
def parse_path (path : String) : String × String :=
  match splitOnceAux path.toList with
  | some (l, r) => (String.mk l, String.mk r)
  | none => ("local", path)

/-- Path join, modelling `Path::join` for the purposes of the traces. -/
def joinPath (a b : String) : String := a ++ "/" ++ b

/-- The events and result of the actual `open` syscall at the end of
`create_fn_fs_open`, including `context_register` of the new file object. The
oracle decides whether the syscall fails with an I/O error. -/
def openTail (oracle : Syscall → Option IoErr) (p : String) (m : OpenMode) :
    List Event × Except Err Unit :=
  match oracle (.openFile p m) with
  | some e => ([.sys (.openFile p m)], .error (.ioErr e))
  | none => ([.sys (.openFile p m), .registerFile], .ok ())

/-- The events and result of the `source.get` call in `create_fn_fs_open`'s
`source` branch, including `context_register` of the new file object. -/
def sourceTail (oracle : Syscall → Option IoErr) (p : String) :
    List Event × Except Err Unit :=
  match oracle (.sourceGet p) with
  | some e => ([.sys (.sourceGet p)], .error (.ioErr e))
  | none => ([.sys (.sourceGet p), .registerFile], .ok ())

/-- `create_fn_fs_open` (src/hive-core/src/lua/fs.rs lines 299-360), as a pure
function from the path and mode to the trace of events and the result. The
normalizers `normalize_path` / `normalize_path_str` (crate::path, not among
the provided sources) are passed in as abstract functions; the oracle gives
each syscall's outcome. The structure mirrors the source: parse the path, parse
the mode, then dispatch on the scheme; `local` opens under the local-storage
directory with no permission check; `external` checks Read/Write atoms keyed by
the mode family against the normalized path before opening; `source` calls
`source.get` (the mode is not consulted in that branch). -/
def fs_open (np nps : String → String) (lsp : String)
    (perms : PermissionSet) (oracle : Syscall → Option IoErr)
    (path : String) (mode : Option String) : List Event × Except Err Unit :=
  let sp := parse_path path
  let scheme := sp.1
  let p := sp.2
  match OpenMode.from_lua mode with
  | .error e => ([], .error e)
  | .ok m =>
    if scheme = "local" then
      let t := openTail oracle (joinPath lsp (nps p)) m
      (t.1, t.2)
    else if scheme = "external" then
      let p2 := np p
      let rd := Permission.read p2
      let wr := Permission.write p2
      match m with
      | .Read =>
        if perms rd then
          let t := openTail oracle p2 m
          (Event.check rd :: t.1, t.2)
        else ([.check rd], .error .permissionDenied)
      | .Write | .Append =>
        if perms wr then
          let t := openTail oracle p2 m
          (Event.check wr :: t.1, t.2)
        else ([.check wr], .error .permissionDenied)
      | .ReadWrite | .ReadWriteNew | .ReadAppend =>
        if perms rd then
          if perms wr then
            let t := openTail oracle p2 m
            (Event.check rd :: Event.check wr :: t.1, t.2)
          else ([.check rd, .check wr], .error .permissionDenied)
        else ([.check rd], .error .permissionDenied)
    else if scheme = "source" then
      let t := sourceTail oracle p
      (t.1, t.2)
    else ([], .error (.schemeNotSupported scheme))

/-- The events and result of the `create_dir` / `create_dir_all` syscall at the
end of `create_fn_fs_mkdir`. -/
def mkdirTail (oracle : Syscall → Option IoErr) (p : String) (all : Bool) :
    List Event × Except Err Unit :=
  let call := if all then Syscall.createDirAll p else Syscall.createDir p
  match oracle call with
  | some e => ([.sys call], .error (.ioErr e))
  | none => ([.sys call], .ok ())

/-- `create_fn_fs_mkdir` (src/hive-core/src/lua/fs.rs lines 362-393): `local`
resolves under local storage with no check; `external` checks a Write atom for
the raw (unnormalized) path before any syscall; `source` is a
"cannot modify service source" error. -/
def fs_mkdir (nps : String → String) (lsp : String)
    (perms : PermissionSet) (oracle : Syscall → Option IoErr)
    (path : String) (all : Bool) : List Event × Except Err Unit :=
  let sp := parse_path path
  let scheme := sp.1
  let p := sp.2
  if scheme = "local" then
    let t := mkdirTail oracle (joinPath lsp (nps p)) all
    (t.1, t.2)
  else if scheme = "external" then
    let wr := Permission.write p
    if perms wr then
      let t := mkdirTail oracle p all
      (Event.check wr :: t.1, t.2)
    else ([.check wr], .error .permissionDenied)
  else if scheme = "source" then ([], .error .cannotModifySource)
  else ([], .error (.schemeNotSupported scheme))

/-- The events and result of the syscalls at the end of `create_fn_fs_remove`:
a `metadata` call, then `remove_dir_all` / `remove_dir` on a directory (by the
`all` flag) or `remove_file` on a regular file. `meta` reports whether the path
is a directory or fails with an I/O error. -/
def removeTail (oracle : Syscall → Option IoErr) (meta : String → Except IoErr Bool)
    (p : String) (all : Bool) : List Event × Except Err Unit :=
  match meta p with
  | .error e => ([.sys (.metadata p)], .error (.ioErr e))
  | .ok isDir =>
    let call :=
      if isDir then (if all then Syscall.removeDirAll p else Syscall.removeDir p)
      else Syscall.removeFile p
    match oracle call with
    | some e => ([.sys (.metadata p), .sys call], .error (.ioErr e))
    | none => ([.sys (.metadata p), .sys call], .ok ())

/-- `create_fn_fs_remove` (src/hive-core/src/lua/fs.rs lines 395-430): same
scheme dispatch as `mkdir`; `external` checks a Write atom for the raw path
before the `metadata` syscall. -/
def fs_remove (nps : String → String) (lsp : String)
    (perms : PermissionSet) (oracle : Syscall → Option IoErr)
    (meta : String → Except IoErr Bool)
    (path : String) (all : Bool) : List Event × Except Err Unit :=
  let sp := parse_path path
  let scheme := sp.1
  let p := sp.2
  if scheme = "local" then
    let t := removeTail oracle meta (joinPath lsp (nps p)) all
    (t.1, t.2)
  else if scheme = "external" then
    let wr := Permission.write p
    if perms wr then
      let t := removeTail oracle meta p all
      (Event.check wr :: t.1, t.2)
    else ([.check wr], .error .permissionDenied)
  else if scheme = "source" then ([], .error .cannotModifySource)
  else ([], .error (.schemeNotSupported scheme))

/-- The atoms the spec requires for an `external:` open, keyed by mode family:
`r` needs Read, `w` and `a` need Write, the three `+` modes need both. -/
def modeAtoms (m : OpenMode) (p : String) : List Permission :=
  match m with
  | .Read => [.read p]
  | .Write | .Append => [.write p]
  | .ReadWrite | .ReadWriteNew | .ReadAppend => [.read p, .write p]

/-- The atoms actually consulted when checking a list in order, stopping after
the first denial. -/
def consultUntil (perms : PermissionSet) : List Permission → List Permission
  | [] => []
  | a :: r => if perms a then a :: consultUntil perms r else [a]

/-- Read modes, from `ReadMode` in src/hive-core/src/lua/fs.rs. -/
inductive ReadMode
  | All
  | Exact (n : Nat)
  | Line
  | LineWithDelimiter
deriving DecidableEq, Repr

/-- Lua values as seen by `read`: its mode arguments and its results. File
bytes are modelled as char lists. -/
inductive LuaValue
  | nil
  | int (i : Int)
  | str (s : List Char)
  | other
deriving DecidableEq, Repr

/-- `ReadMode::from_lua` (src/hive-core/src/lua/fs.rs lines 120-138): a
positive integer is `Exact`; the strings a, l, L select the other modes;
anything else is an "invalid file read mode" error (reported here as the
caller's BadArgument wrapping). -/
def ReadMode.from_lua (v : LuaValue) : Option ReadMode :=
  match v with
  | .int i => if i > 0 then some (.Exact i.toNat) else none
  | .str s =>
    if s = ['a'] then some .All
    else if s = ['l'] then some .Line
    else if s = ['L'] then some .LineWithDelimiter
    else none
  | _ => none

/-- An open file object: its full contents and the current read position
(the BufReader and the underlying file are modelled as one cursor). -/
structure LuaFile where
  content : List Char
  pos : Nat
deriving DecidableEq, Repr

/-- The bytes `read_line` consumes: up to and including the first newline, or
everything that remains. -/
def takeLine : List Char → List Char
  | [] => []
  | c :: r => if c = '\n' then [c] else c :: takeLine r

/-- Strip one trailing newline, then one trailing carriage return, as the
`Line` arm of `read_once` does. -/
def stripNewline (l : List Char) : List Char :=
  let l2 := if l.getLast? = some '\n' then l.dropLast else l
  if l2.getLast? = some '\r' then l2.dropLast else l2

/-- `read_once` (src/hive-core/src/lua/fs.rs lines 142-198) as a pure function
on the file cursor. The `All` arm returns the remaining contents (the
`file_len - pos` value in the source only sizes the buffer's capacity). The
`Exact` arm mirrors the source: a zero count returns the empty string;
otherwise the count is clamped to the total file length and handed to tokio's
`read_exact`, which returns the full buffer or fails with `UnexpectedEof` when
fewer bytes remain; a zero-length successful read (only possible on an empty
file) returns nil. The line arms read through the next newline and return nil
when no bytes were read. -/
def read_once (f : LuaFile) (m : ReadMode) : Except IoErr (LuaValue × LuaFile) :=
  match m with
  | .All =>
    .ok (.str (f.content.drop f.pos), { f with pos := f.content.length })
  | .Exact n =>
    if n = 0 then .ok (.str [], f)
    else
      let len := min n f.content.length
      let remaining := f.content.length - f.pos
      if len ≤ remaining then
        if len = 0 then .ok (.nil, f)
        else .ok (.str ((f.content.drop f.pos).take len), { f with pos := f.pos + len })
      else .error .unexpectedEof
  | .Line =>
    let line := takeLine (f.content.drop f.pos)
    if line.length = 0 then .ok (.nil, f)
    else .ok (.str (stripNewline line), { f with pos := f.pos + line.length })
  | .LineWithDelimiter =>
    let line := takeLine (f.content.drop f.pos)
    if line.length = 0 then .ok (.nil, f)
    else .ok (.str line, { f with pos := f.pos + line.length })

/-- The variadic loop inside `LuaFile::read` (src/hive-core/src/lua/fs.rs
lines 207-232): parse each mode in turn (a bad mode is a BadArgument error
naming its 1-based position), run `read_once`, collect results positionally,
and stop, keeping the nil, as soon as a mode yields nil. -/
def readLoop (f : LuaFile) (i : Nat) : List LuaValue → Except Err (List LuaValue × LuaFile)
  | [] => .ok ([], f)
  | v :: rest =>
    match ReadMode.from_lua v with
    | none => .error (.badArgument "read" (i + 1))
    | some m =>
      match read_once f m with
      | .error e => .error (.ioErr e)
      | .ok (val, f2) =>
        if val = .nil then .ok ([.nil], f2)
        else
          match readLoop f2 (i + 1) rest with
          | .error e => .error e
          | .ok (vs, f3) => .ok (val :: vs, f3)

/-- `LuaFile::read`: with no modes a single implicit `l` read; otherwise the
variadic loop over the given modes. -/
def LuaFile.read (f : LuaFile) (modes : List LuaValue) :
    Except Err (List LuaValue × LuaFile) :=
  if modes = [] then
    match read_once f .Line with
    | .error e => .error (.ioErr e)
    | .ok (val, f2) => .ok ([val], f2)
  else readLoop f 0 modes

/-- Service-level error kinds (crate::ErrorKind as used by the two service
pools), with hook failures carried as lua error messages and I/O failures as
`IoErr`. -/
inductive SvcErr
  | serviceNotFound (name : String)
  | serviceStopped (name : String)
  | serviceRunning (name : String)
  | serviceExists (name : String)
  | serviceDropped
  | hookErr (msg : String)
  | ioErr (e : IoErr)
deriving DecidableEq, Repr

namespace V1

/-- `ServiceImpl` from src/hive-core/src/service.rs: equality and hashing are
by name only; the uuid stands in for the rest of the record (paths, source). -/
structure ServiceImpl where
  name : String
  uuid : Nat
deriving DecidableEq, Repr

/-- A weak reference to a `ServiceImpl` (`Service` in service.rs): `none` when
the strong count is zero, i.e. the record has been dropped. -/
structure Service where
  inner : Option ServiceImpl
deriving DecidableEq, Repr

/-- An upgraded RAII guard (`ServiceGuard` in service.rs). -/
structure ServiceGuard where
  inner : ServiceImpl
deriving DecidableEq, Repr

/-- `Service::try_upgrade` (service.rs lines 69-76): upgrading a dropped weak
reference is a recoverable `ServiceDropped` error. -/
def Service.try_upgrade (s : Service) : Except SvcErr ServiceGuard :=
  match s.inner with
  | some r => .ok ⟨r⟩
  | none => .error .serviceDropped

/-- `Service::upgrade` (service.rs lines 78-80) is `try_upgrade().unwrap()`;
the unwrap panic is modelled as `none`. -/
def Service.upgrade (s : Service) : Option ServiceGuard :=
  (s.try_upgrade).toOption

/-- `Service::is_dropped` (service.rs lines 82-84): the strong count is zero. -/
def Service.is_dropped (s : Service) : Bool :=
  s.inner.isNone

/-- Whether the pool (a HashSet of `ServiceImpl` keyed by name equality)
contains a record with the given name. -/
def containsName (services : List ServiceImpl) (n : String) : Bool :=
  services.any (fun r => r.name = n)

/-- `ServicePool::create_service` (service.rs lines 119-152). The sandboxed
`pre_create_service` / `finish_create_service` calls are abstracted into their
outcomes (`pre`, `fin`, and the freshly generated uuid); on success a record is
built, a weak handle is taken, and the record is inserted into the HashSet.
`HashSet::insert` of a name that is already present returns false, keeps the
old record, and drops the new one, so the returned weak handle dangles in that
case; the source performs no existence check of its own. -/
def create_service (services : List ServiceImpl) (name : String) (uuid : Nat)
    (pre fin : Option String) : Except SvcErr Service × List ServiceImpl :=
  match pre with
  | some e => (.error (.hookErr e), services)
  | none =>
    match fin with
    | some e => (.error (.hookErr e), services)
    | none =>
      let service_impl : ServiceImpl := ⟨name, uuid⟩
      if containsName services name then
        (.ok ⟨none⟩, services)
      else
        (.ok ⟨some service_impl⟩, service_impl :: services)

end V1

namespace V2

/-- `ServiceState` (src/hive-core/src/service/mod.rs via service/impls.rs):
`Running` holds a strong reference to the record, `Stopped` the owned record;
`into_impl` converts either to the owned record, modelled as carrying the same
payload `R`. -/
inductive ServiceState (R : Type)
  | Running (r : R)
  | Stopped (r : R)
deriving DecidableEq, Repr

/-- The service pool's concurrent map (`DashMap<ServiceName, ServiceState>`),
modelled extensionally as a function from names to optional states. Per-name
operations are atomic in this sequential model, matching the per-entry lock the
DashMap holds across each transition. -/
def Services (R : Type) : Type := String → Option (ServiceState R)

/-- Point update of the map. -/
def Services.update (m : Services R) (k : String) (v : Option (ServiceState R)) :
    Services R :=
  fun n => if n = k then v else m n

/-- `ServicePool::get` (service/mod.rs lines 30-35): a read-only view, a weak
Running handle or a Stopped borrow, carrying the record's payload. -/
def get (pool : Services R) (name : String) : Option (ServiceState R) :=
  pool name

/-- `ServicePool::get_running` (service/mod.rs lines 37-44): `some` only when
the current state is Running. -/
def get_running (pool : Services R) (name : String) : Option R :=
  match pool name with
  | some (.Running r) => some r
  | _ => none

/-- `ServicePool::stop` (service/mod.rs lines 53-72). The stop hook's outcome
(`sandbox.run_stop` inside the leased scope) is passed in as `hook` (`none` for
success, `some msg` for a lua error). When the entry is Running the state is
replaced with Stopped unconditionally after the hook, and the hook's result
decides the returned value; a Stopped entry is a ServiceStopped error and an
absent name a ServiceNotFound error, both leaving the map untouched. -/
def stop (pool : Services R) (hook : Option String) (name : String) :
    Except SvcErr Unit × Services R :=
  match pool name with
  | some (.Running r) =>
    let pool2 := pool.update name (some (.Stopped r))
    match hook with
    | none => (.ok (), pool2)
    | some e => (.error (.hookErr e), pool2)
  | some (.Stopped _) => (.error (.serviceStopped name), pool)
  | none => (.error (.serviceNotFound name), pool)

/-- `ServicePool::stop_all` (service/mod.rs lines 90-110): every Running entry
is replaced with Stopped; hook errors are logged, never returned. -/
def stop_all (pool : Services R) : Services R :=
  fun n =>
    match pool n with
    | some (.Running r) => some (.Stopped r)
    | x => x

/-- `ServicePool::start` (service/mod.rs lines 112-143): a Stopped entry is
speculatively replaced with Running, then the start hook runs; on hook failure
the entry is put back to Stopped and the error propagated. A Running entry is a
ServiceRunning error and an absent name a ServiceNotFound error. -/
def start (pool : Services R) (hook : Option String) (name : String) :
    Except SvcErr Unit × Services R :=
  match pool name with
  | some (.Stopped r) =>
    let pool2 := pool.update name (some (.Running r))
    match hook with
    | none => (.ok (), pool2)
    | some e => (.error (.hookErr e), pool2.update name (some (.Stopped r)))
  | some (.Running _) => (.error (.serviceRunning name), pool)
  | none => (.error (.serviceNotFound name), pool)

/-- `ServicePool::remove` (service/mod.rs lines 145-157): the entry is removed
from the map first; a Running entry is re-inserted and ServiceRunning returned;
a Stopped entry stays removed and the local-storage directory is deleted, whose
outcome `rm` (an I/O error or success) becomes the returned result — a deletion
failure surfaces but the entry is not restored. -/
def remove (pool : Services R) (rm : Option IoErr) (name : String) :
    Except SvcErr R × Services R :=
  match pool name with
  | some st =>
    let pool2 := pool.update name none
    match st with
    | .Stopped r =>
      match rm with
      | some e => (.error (.ioErr e), pool2)
      | none => (.ok r, pool2)
    | .Running _ => (.error (.serviceRunning name), pool2.update name (some st))
  | none => (.error (.serviceNotFound name), pool)

/-- Modelled from the spec: `create` lives in src/hive-core/src/service/create.rs,
which is not among the provided sources. Per the spec (§4.1): it fails with
ServiceExists if the name is taken; otherwise the sandboxed pre/finish steps
run (their outcome is `pre`; no partially-registered service is observable on
failure) and `Running(record)` is inserted into the pool. -/
def create (pool : Services R) (record : R) (pre : Option String) (name : String) :
    Except SvcErr Unit × Services R :=
  match pool name with
  | some _ => (.error (.serviceExists name), pool)
  | none =>
    match pre with
    | some e => (.error (.hookErr e), pool)
    | none => (.ok (), pool.update name (some (.Running record)))

/-- The observable state of one name in the pool. -/
inductive Obs
  | absent
  | running
  | stopped
deriving DecidableEq, Repr

/-- Observation of a map entry. -/
def obsOf : Option (ServiceState R) → Obs
  | none => .absent
  | some (.Running _) => .running
  | some (.Stopped _) => .stopped

/-- The edges of the spec's service state machine
(absent → Running ↔ Stopped → absent). -/
inductive Edge : Obs → Obs → Prop
  | create : Edge .absent .running
  | stop : Edge .running .stopped
  | start : Edge .stopped .running
  | remove : Edge .stopped .absent

/-- One step of a valid walk: stay put or follow an edge. -/
def Step (a b : Obs) : Prop := a = b ∨ Edge a b

/-- One Service Pool operation applied to the observed name, with the hook and
I/O outcomes it depends on. -/
inductive Op (R : Type)
  | create (record : R) (pre : Option String)
  | get
  | get_running
  | list
  | stop (hook : Option String)
  | stop_all
  | start (hook : Option String)
  | remove (rm : Option IoErr)

/-- The pool after applying one operation to the given name. `get`,
`get_running` and `list` are read-only (list builds views from a snapshot
iterator without mutating entries). -/
def applyOp (name : String) (pool : Services R) : Op R → Services R
  | .create record pre => (create pool record pre name).2
  | .get => pool
  | .get_running => pool
  | .list => pool
  | .stop hook => (stop pool hook name).2
  | .stop_all => stop_all pool
  | .start hook => (start pool hook name).2
  | .remove rm => (remove pool rm name).2

/-- The states of the observed name after each operation of a sequence. -/
def runOps (name : String) (pool : Services R) : List (Op R) → List Obs
  | [] => []
  | op :: rest =>
    obsOf ((applyOp name pool op) name) :: runOps name (applyOp name pool op) rest

/-- The full observation trace: the initial state, then the state after each
operation. -/
def statesOf (name : String) (pool : Services R) (ops : List (Op R)) : List Obs :=
  obsOf (pool name) :: runOps name pool ops

end V2

namespace Server

/-- JSON values, for the response bodies built by src/hive-server/src/error.rs. -/
inductive Json
  | null
  | bool (b : Bool)
  | num (n : Int)
  | str (s : String)
  | arr (xs : List Json)
  | obj (fields : List (String × Json))

/-- The server `Error` (src/hive-server/src/error.rs lines 10-16): an HTTP
status, a short error string, a JSON detail, and an optional backtrace
(rendered as a string when serialized). -/
structure Error where
  status : Nat
  error : String
  detail : Json
  backtrace : Option String

/-- `StatusCode::is_server_error`: a 5xx status. -/
def is_server_error (status : Nat) : Bool :=
  500 ≤ status && status ≤ 599

/-- The JSON body built by `Error::into_response` (error.rs lines 67-94):
authenticated callers of a 5xx error get the error, detail, and (when the
backtrace env flag is set) the rendered backtrace; unauthenticated callers of a
5xx error get a fixed generic object; non-5xx errors get the error and detail. -/
def into_response_body (e : Error) (authed : Bool) (use_backtrace : Bool) : Json :=
  if is_server_error e.status then
    if authed then
      .obj [("error", .str e.error), ("detail", e.detail),
        ("backtrace",
          if use_backtrace then
            match e.backtrace with
            | some b => .str b
            | none => .null
          else .null)]
    else
      .obj [("error", .str "internal server error"),
        ("detail", .obj [("msg", .str "Contact system administrator for help")])]
  else
    .obj [("error", .str e.error), ("detail", e.detail)]

/-- `Error::into_response` pairs the status with the body. -/
def into_response (e : Error) (authed : Bool) (use_backtrace : Bool) : Nat × Json :=
  (e.status, into_response_body e authed use_backtrace)

end Server

theorem splitOnceAux_append (pre : List Char) (h : ':' ∉ pre) (rest : List Char) :
    splitOnceAux (pre ++ ':' :: rest) = some (pre, rest) := by
  induction pre with
  | nil => simp [splitOnceAux]
  | cons c l ih =>
    have hc : c ≠ ':' := fun hc => h (hc ▸ List.mem_cons_self c l)
    have hl : ':' ∉ l := fun hm => h (List.mem_cons_of_mem c hm)
    simp [splitOnceAux, hc, ih hl]

theorem parse_path_scheme (s rel : String) (h : ':' ∉ s.toList) :
    parse_path (s ++ ":" ++ rel) = (s, rel) := by
  have hdata : (s ++ ":" ++ rel).toList = s.toList ++ ':' :: rel.toList := by
    simp [String.toList, String.data_append]
  simp only [parse_path, hdata, splitOnceAux_append s.toList h rel.toList]
  cases s
  cases rel
  rfl

/-- C1. Claim: for every `fs.open` call on a `source:` path with a mode other
than `r`, the operation fails with InvalidOpenMode and no file object is
returned or registered. The code does not check the mode in the `source`
branch of `create_fn_fs_open`: evaluating the embedding at the failing input
(path `source:main.lua`, mode `w`), the call succeeds, the source file is
fetched, and the file object is registered into the resource context. -/
theorem c1_source_open_ignores_mode :
    fs_open id id "root" (fun _ => false) (fun _ => none)
      "source:main.lua" (some "w")
    = ([.sys (.sourceGet "main.lua"), .registerFile], .ok ()) := by
  rfl

/-- C2. Claim: `create_service` on a name already present fails with
ServiceExists and leaves the pool unchanged. The code performs no existence
check: evaluating the embedding with a pool already containing `foo`, a second
`create_service` for `foo` returns Ok — with a weak handle whose record was
dropped by the duplicate-discarding HashSet insert, so it upgrades to
ServiceDropped — while the pool keeps only the old record. -/
theorem c2_create_service_duplicate_is_ok :
    V1.create_service [⟨"foo", 0⟩] "foo" 1 none none
      = (.ok ⟨none⟩, [⟨"foo", 0⟩])
    ∧ (V1.Service.mk none).try_upgrade = .error .serviceDropped := by
  constructor
  · simp [V1.create_service, V1.containsName]
  · rfl

/-- C7. Claim: `read(n)` returns nil at clean end-of-file rather than an
error. Evaluating the embedding at the failing input — a two-byte file read
with `read(2, 1)`, so the second mode starts at clean EOF — the second
`read_once` clamps 1 to `min 1 2 = 1 > 0` remaining bytes and tokio's
`read_exact` fails with UnexpectedEof, so the whole call returns an I/O error
instead of the string and nil. -/
theorem c7_read_clean_eof_is_io_error :
    LuaFile.read ⟨['a', 'b'], 0⟩ [.int 2, .int 1]
      = .error (.ioErr .unexpectedEof) := by
  rfl

/-- C9. Claim: on a Service handle whose record has been dropped,
`try_upgrade` returns the recoverable ServiceDropped error while `upgrade`
panics (modelled as none); `upgrade` yields a guard without panicking exactly
when the record is still live. -/
theorem c9_upgrade_vs_try_upgrade (s : V1.Service) :
    (s.is_dropped = true →
      s.try_upgrade = .error .serviceDropped ∧ s.upgrade = none)
    ∧ (s.is_dropped = false →
      ∃ g, s.try_upgrade = .ok g ∧ s.upgrade = some g) := by
  obtain ⟨inner⟩ := s
  cases inner <;>
    simp [V1.Service.is_dropped, V1.Service.try_upgrade, V1.Service.upgrade,
      Except.toOption]

/-- C9 witness: a dropped handle and a live handle, with the theorem applied
at both. -/
theorem c9_upgrade_vs_try_upgrade_witness :
    ((V1.Service.mk none).try_upgrade = .error .serviceDropped
      ∧ (V1.Service.mk none).upgrade = none)
    ∧ ∃ g, (V1.Service.mk (some ⟨"svc", 0⟩)).try_upgrade = .ok g
        ∧ (V1.Service.mk (some ⟨"svc", 0⟩)).upgrade = some g :=
  ⟨(c9_upgrade_vs_try_upgrade ⟨none⟩).1 rfl,
    (c9_upgrade_vs_try_upgrade ⟨some ⟨"svc", 0⟩⟩).2 rfl⟩

/-- C10. Claim: any two server Error values with the same 5xx status, rendered
with authed = false, produce identical response bodies, namely the fixed
generic JSON object, so detail and backtrace never reach unauthenticated
callers. -/
theorem c10_unauthed_server_error_body_generic
    (e1 e2 : Server.Error) (ub1 ub2 : Bool)
    (_hs : e1.status = e2.status)
    (h1 : Server.is_server_error e1.status = true)
    (h2 : Server.is_server_error e2.status = true) :
    Server.into_response_body e1 false ub1 = Server.into_response_body e2 false ub2
    ∧ Server.into_response_body e1 false ub1 =
        .obj [("error", .str "internal server error"),
          ("detail", .obj [("msg", .str "Contact system administrator for help")])] := by
  simp [Server.into_response_body, h1, h2]

/-- C10 witness: two 500-status errors with different details and backtraces
yield the same generic body. -/
theorem c10_unauthed_server_error_body_generic_witness :
    Server.into_response_body ⟨500, "lua error", .str "secret-a", some "bt-a"⟩ false true
      = Server.into_response_body ⟨500, "io error", .str "secret-b", none⟩ false false :=
  (c10_unauthed_server_error_body_generic
    ⟨500, "lua error", .str "secret-a", some "bt-a"⟩
    ⟨500, "io error", .str "secret-b", none⟩
    true false rfl (by decide) (by decide)).1

/-- C4. Claim: `stop` fails with ServiceNotFound when the name is absent and
ServiceStopped when the entry is already Stopped (the pool unchanged in both
cases); on a Running entry the state becomes Stopped even when the stop hook
errors, in which case the hook's error is returned. -/
theorem c4_stop_semantics {R : Type} (pool : V2.Services R) (name : String)
    (hook : Option String) :
    (pool name = none →
      V2.stop pool hook name = (.error (.serviceNotFound name), pool))
    ∧ (∀ r, pool name = some (.Stopped r) →
      V2.stop pool hook name = (.error (.serviceStopped name), pool))
    ∧ (∀ r, pool name = some (.Running r) →
      (V2.stop pool hook name).2 name = some (.Stopped r)
      ∧ (hook = none → (V2.stop pool hook name).1 = .ok ())
      ∧ (∀ e, hook = some e →
          (V2.stop pool hook name).1 = .error (.hookErr e))) := by
  refine ⟨fun h => ?_, fun r h => ?_, fun r h => ?_⟩
  · simp [V2.stop, h]
  · simp [V2.stop, h]
  · cases hook <;> simp [V2.stop, h, V2.Services.update]

/-- C4 witness: a pool holding one Running service stopped with a failing
hook ends Stopped with the hook's error returned; stopping it again is a
ServiceStopped error, and stopping a missing name a ServiceNotFound error. -/
theorem c4_stop_semantics_witness :
    (V2.stop (fun n => if n = "svc" then some (.Running ()) else none)
        (some "boom") "svc").2 "svc" = some (.Stopped ())
    ∧ (V2.stop (fun n => if n = "svc" then some (.Running ()) else none)
        (some "boom") "svc").1 = .error (.hookErr "boom")
    ∧ (V2.stop (fun n => if n = "svc" then some (.Stopped ()) else none)
        none "svc").1 = .error (.serviceStopped "svc")
    ∧ (V2.stop (fun _ => (none : Option (V2.ServiceState Unit)))
        none "zzz").1 = .error (.serviceNotFound "zzz") := by
  have h := c4_stop_semantics
    (fun n => if n = "svc" then some (.Running ()) else none) "svc" (some "boom")
  have h2 := c4_stop_semantics
    (fun n => if n = "svc" then some (.Stopped ()) else none) "svc" none
  have h3 := c4_stop_semantics
    (fun _ => (none : Option (V2.ServiceState Unit))) "zzz" none
  refine ⟨(h.2.2 () (by simp)).1, (h.2.2 () (by simp)).2.2 "boom" rfl,
    ?_, ?_⟩
  · rw [h2.2.1 () (by simp)]
  · rw [h3.1 rfl]

/-- C5. Claim: `start` fails with ServiceNotFound when the name is absent and
ServiceRunning when the entry is already Running (the pool unchanged in both
cases); a Stopped entry is transitioned to Running, and if the start hook
fails it is transitioned back to Stopped with the hook's error propagated. -/
theorem c5_start_semantics {R : Type} (pool : V2.Services R) (name : String)
    (hook : Option String) :
    (pool name = none →
      V2.start pool hook name = (.error (.serviceNotFound name), pool))
    ∧ (∀ r, pool name = some (.Running r) →
      V2.start pool hook name = (.error (.serviceRunning name), pool))
    ∧ (∀ r, pool name = some (.Stopped r) →
      (hook = none →
        (V2.start pool hook name).1 = .ok ()
        ∧ (V2.start pool hook name).2 name = some (.Running r))
      ∧ (∀ e, hook = some e →
        (V2.start pool hook name).1 = .error (.hookErr e)
        ∧ (V2.start pool hook name).2 name = some (.Stopped r))) := by
  refine ⟨fun h => ?_, fun r h => ?_, fun r h => ?_⟩
  · simp [V2.start, h]
  · simp [V2.start, h]
  · cases hook <;> simp [V2.start, h, V2.Services.update]

/-- C5 witness: a Stopped service started with a failing hook is Stopped again
with the error propagated; started with a succeeding hook it is Running;
starting a Running service is a ServiceRunning error and a missing name a
ServiceNotFound error. -/
theorem c5_start_semantics_witness :
    (V2.start (fun n => if n = "svc" then some (.Stopped ()) else none)
        (some "boom") "svc").1 = .error (.hookErr "boom")
    ∧ (V2.start (fun n => if n = "svc" then some (.Stopped ()) else none)
        (some "boom") "svc").2 "svc" = some (.Stopped ())
    ∧ (V2.start (fun n => if n = "svc" then some (.Stopped ()) else none)
        none "svc").2 "svc" = some (.Running ())
    ∧ (V2.start (fun n => if n = "svc" then some (.Running ()) else none)
        none "svc").1 = .error (.serviceRunning "svc")
    ∧ (V2.start (fun _ => (none : Option (V2.ServiceState Unit)))
        none "zzz").1 = .error (.serviceNotFound "zzz") := by
  have hf := c5_start_semantics
    (fun n => if n = "svc" then some (.Stopped ()) else none) "svc" (some "boom")
  have ho := c5_start_semantics
    (fun n => if n = "svc" then some (.Stopped ()) else none) "svc" none
  have hr := c5_start_semantics
    (fun n => if n = "svc" then some (.Running ()) else none) "svc" none
  have hn := c5_start_semantics
    (fun _ => (none : Option (V2.ServiceState Unit))) "zzz" none
  refine ⟨((hf.2.2 () (by simp)).2 "boom" rfl).1,
    ((hf.2.2 () (by simp)).2 "boom" rfl).2,
    ((ho.2.2 () (by simp)).1 rfl).2, ?_, ?_⟩
  · rw [hr.2.1 () (by simp)]
  · rw [hn.1 rfl]

/-- C6. Claim: `remove` fails with ServiceNotFound when the name is absent and
ServiceRunning when the entry is Running, leaving the pool unchanged; a
Stopped entry is removed from the pool, and when the best-effort local-storage
deletion fails the entry is still removed and the error is returned. -/
theorem c6_remove_semantics {R : Type} (pool : V2.Services R) (name : String)
    (rm : Option IoErr) :
    (pool name = none →
      V2.remove pool rm name = (.error (.serviceNotFound name), pool))
    ∧ (∀ r, pool name = some (.Running r) →
      (V2.remove pool rm name).1 = .error (.serviceRunning name)
      ∧ (V2.remove pool rm name).2 = pool)
    ∧ (∀ r, pool name = some (.Stopped r) →
      (V2.remove pool rm name).2 name = none
      ∧ (rm = none → (V2.remove pool rm name).1 = .ok r)
      ∧ (∀ e, rm = some e →
          (V2.remove pool rm name).1 = .error (.ioErr e))) := by
  refine ⟨fun h => ?_, fun r h => ?_, fun r h => ?_⟩
  · simp [V2.remove, h]
  · refine ⟨by simp [V2.remove, h], ?_⟩
    funext n
    by_cases hn : n = name
    · subst hn
      simp [V2.remove, h, V2.Services.update]
    · simp [V2.remove, h, V2.Services.update, hn]
  · cases rm <;> simp [V2.remove, h, V2.Services.update]

/-- C6 witness: removing a Stopped service with a failing storage deletion
still removes the entry and returns the I/O error; removing a Running service
is a ServiceRunning error with the pool intact; removing a missing name is a
ServiceNotFound error. -/
theorem c6_remove_semantics_witness :
    (V2.remove (fun n => if n = "svc" then some (.Stopped ()) else none)
        (some (.other "disk")) "svc").2 "svc" = none
    ∧ (V2.remove (fun n => if n = "svc" then some (.Stopped ()) else none)
        (some (.other "disk")) "svc").1 = .error (.ioErr (.other "disk"))
    ∧ (V2.remove (fun n => if n = "svc" then some (.Running ()) else none)
        none "svc").2 = (fun n => if n = "svc" then some (.Running ()) else none)
    ∧ (V2.remove (fun _ => (none : Option (V2.ServiceState Unit)))
        none "zzz").1 = .error (.serviceNotFound "zzz") := by
  have hs := c6_remove_semantics
    (fun n => if n = "svc" then some (.Stopped ()) else none) "svc"
    (some (.other "disk"))
  have hr := c6_remove_semantics
    (fun n => if n = "svc" then some (.Running ()) else none) "svc" none
  have hn := c6_remove_semantics
    (fun _ => (none : Option (V2.ServiceState Unit))) "zzz" none
  refine ⟨(hs.2.2 () (by simp)).1,
    (hs.2.2 () (by simp)).2.2 (.other "disk") rfl,
    (hr.2.1 () (by simp)).2, ?_⟩
  · rw [hn.1 rfl]

/-- Whether a trace contains no filesystem syscall. -/
def sysFree (tr : List Event) : Bool := tr.all (fun e => !e.isSys)

theorem sysFree_map_check (l : List Permission) :
    sysFree (l.map Event.check) = true := by
  simp [sysFree, Event.isSys]

theorem openTail_not_denied (oracle : Syscall → Option IoErr) (p : String)
    (m : OpenMode) : (openTail oracle p m).2 ≠ .error .permissionDenied := by
  cases h : oracle (.openFile p m) <;> simp [openTail, h]

theorem mkdirTail_not_denied (oracle : Syscall → Option IoErr) (p : String)
    (all : Bool) : (mkdirTail oracle p all).2 ≠ .error .permissionDenied := by
  cases h : oracle (if all then Syscall.createDirAll p else Syscall.createDir p) <;>
    simp [mkdirTail, h]

theorem removeTail_not_denied (oracle : Syscall → Option IoErr)
    (meta : String → Except IoErr Bool) (p : String) (all : Bool) :
    (removeTail oracle meta p all).2 ≠ .error .permissionDenied := by
  cases hm : meta p with
  | error e => simp [removeTail, hm]
  | ok isDir =>
    cases ho : oracle (if isDir then (if all then Syscall.removeDirAll p
        else Syscall.removeDir p) else Syscall.removeFile p) <;>
      simp [removeTail, hm, ho]

theorem fs_open_external (np nps : String → String) (lsp : String)
    (perms : PermissionSet) (oracle : Syscall → Option IoErr)
    (path rel : String) (m : OpenMode)
    (h : parse_path path = ("external", rel)) :
    fs_open np nps lsp perms oracle path (some m.toStr)
      = ((consultUntil perms (modeAtoms m (np rel))).map Event.check
          ++ (if (modeAtoms m (np rel)).all perms
              then (openTail oracle (np rel) m).1 else []),
        if (modeAtoms m (np rel)).all perms
          then (openTail oracle (np rel) m).2 else .error .permissionDenied) := by
  cases m <;>
    by_cases hrd : perms (Permission.read (np rel)) <;>
    by_cases hwr : perms (Permission.write (np rel)) <;>
    simp [fs_open, h, OpenMode.toStr, OpenMode.from_lua, modeAtoms, consultUntil,
      hrd, hwr]

theorem fs_mkdir_external (nps : String → String) (lsp : String)
    (perms : PermissionSet) (oracle : Syscall → Option IoErr)
    (path rel : String) (all : Bool)
    (h : parse_path path = ("external", rel)) :
    fs_mkdir nps lsp perms oracle path all
      = (Event.check (.write rel)
          :: (if perms (.write rel) then (mkdirTail oracle rel all).1 else []),
        if perms (.write rel) then (mkdirTail oracle rel all).2
          else .error .permissionDenied) := by
  by_cases hwr : perms (Permission.write rel) <;> simp [fs_mkdir, h, hwr]

theorem fs_remove_external (nps : String → String) (lsp : String)
    (perms : PermissionSet) (oracle : Syscall → Option IoErr)
    (meta : String → Except IoErr Bool)
    (path rel : String) (all : Bool)
    (h : parse_path path = ("external", rel)) :
    fs_remove nps lsp perms oracle meta path all
      = (Event.check (.write rel)
          :: (if perms (.write rel) then (removeTail oracle meta rel all).1 else []),
        if perms (.write rel) then (removeTail oracle meta rel all).2
          else .error .permissionDenied) := by
  by_cases hwr : perms (Permission.write rel) <;> simp [fs_remove, h, hwr]

/-- C3. Claim: on `external:` paths, `open` consults the Permission Set before
any filesystem syscall with the atoms keyed by the mode family — Read for `r`,
Write for `w`/`a`, both for the `+` modes — against the normalized path, and
`mkdir`/`remove` consult a Write atom; each operation fails with
PermissionDenied exactly when its required check fails, and then issues no
filesystem syscall. The traces start with the consulted atoms (in order,
stopping at the first denial) and only then contain syscalls. -/
theorem c3_external_permission_gate (np nps : String → String) (lsp : String)
    (perms : PermissionSet) (oracle : Syscall → Option IoErr)
    (meta : String → Except IoErr Bool)
    (path rel : String) (m : OpenMode) (all : Bool)
    (h : parse_path path = ("external", rel)) :
    ((fs_open np nps lsp perms oracle path (some m.toStr)).1
        = (consultUntil perms (modeAtoms m (np rel))).map Event.check
          ++ (if (modeAtoms m (np rel)).all perms
              then (openTail oracle (np rel) m).1 else [])
      ∧ ((fs_open np nps lsp perms oracle path (some m.toStr)).2
            = .error .permissionDenied
          ↔ (modeAtoms m (np rel)).all perms = false)
      ∧ ((modeAtoms m (np rel)).all perms = false →
          sysFree (fs_open np nps lsp perms oracle path (some m.toStr)).1 = true))
    ∧ ((fs_mkdir nps lsp perms oracle path all).1
        = Event.check (.write rel)
          :: (if perms (.write rel) then (mkdirTail oracle rel all).1 else [])
      ∧ ((fs_mkdir nps lsp perms oracle path all).2 = .error .permissionDenied
          ↔ perms (.write rel) = false)
      ∧ (perms (.write rel) = false →
          sysFree (fs_mkdir nps lsp perms oracle path all).1 = true))
    ∧ ((fs_remove nps lsp perms oracle meta path all).1
        = Event.check (.write rel)
          :: (if perms (.write rel) then (removeTail oracle meta rel all).1 else [])
      ∧ ((fs_remove nps lsp perms oracle meta path all).2 = .error .permissionDenied
          ↔ perms (.write rel) = false)
      ∧ (perms (.write rel) = false →
          sysFree (fs_remove nps lsp perms oracle meta path all).1 = true)) := by
  rw [fs_open_external np nps lsp perms oracle path rel m h,
    fs_mkdir_external nps lsp perms oracle path rel all h,
    fs_remove_external nps lsp perms oracle meta path rel all h]
  refine ⟨⟨rfl, ?_, ?_⟩, ⟨rfl, ?_, ?_⟩, ⟨rfl, ?_, ?_⟩⟩
  · by_cases hall : (modeAtoms m (np rel)).all perms <;>
      simp [hall, openTail_not_denied]
  · intro hall
    simp [hall, sysFree_map_check]
  · by_cases hwr : perms (Permission.write rel) <;>
      simp [hwr, mkdirTail_not_denied]
  · intro hwr
    simp [hwr, sysFree, Event.isSys]
  · by_cases hwr : perms (Permission.write rel) <;>
      simp [hwr, removeTail_not_denied]
  · intro hwr
    simp [hwr, sysFree, Event.isSys]

/-- C3 witness: with an empty permission set, opening, mkdir-ing and removing
`external:etc` all fail with PermissionDenied and issue no syscall. -/
theorem c3_external_permission_gate_witness :
    (fs_open id id "root" (fun _ => false) (fun _ => none)
        "external:etc" (some OpenMode.Read.toStr)).2 = .error .permissionDenied
    ∧ sysFree (fs_open id id "root" (fun _ => false) (fun _ => none)
        "external:etc" (some OpenMode.Read.toStr)).1 = true
    ∧ (fs_mkdir id "root" (fun _ => false) (fun _ => none)
        "external:etc" false).2 = .error .permissionDenied
    ∧ (fs_remove id "root" (fun _ => false) (fun _ => none) (fun _ => .ok false)
        "external:etc" false).2 = .error .permissionDenied := by
  have h := c3_external_permission_gate id id "root" (fun _ => false)
    (fun _ => none) (fun _ => .ok false) "external:etc" "etc" .Read false (by rfl)
  exact ⟨h.1.2.1.mpr rfl, h.1.2.2 rfl, h.2.1.2.1.mpr rfl, h.2.2.2.1.mpr rfl⟩

theorem step_applyOp {R : Type} (name : String) (pool : V2.Services R)
    (op : V2.Op R) :
    V2.Step (V2.obsOf (pool name)) (V2.obsOf ((V2.applyOp name pool op) name)) := by
  cases op with
  | create record pre =>
    cases h : pool name with
    | some st => simp [V2.applyOp, V2.create, h, V2.Step]
    | none =>
      cases pre with
      | some e => simp [V2.applyOp, V2.create, h, V2.Step]
      | none =>
        have hv : (V2.applyOp name pool (V2.Op.create record none)) name
            = some (V2.ServiceState.Running record) := by
          simp [V2.applyOp, V2.create, h, V2.Services.update]
        rw [hv]
        exact Or.inr V2.Edge.create
  | get => exact Or.inl rfl
  | get_running => exact Or.inl rfl
  | list => exact Or.inl rfl
  | stop hook =>
    cases h : pool name with
    | none => simp [V2.applyOp, V2.stop, h, V2.Step]
    | some st =>
      cases st with
      | Stopped r => simp [V2.applyOp, V2.stop, h, V2.Step]
      | Running r =>
        have hv : (V2.applyOp name pool (V2.Op.stop hook)) name
            = some (V2.ServiceState.Stopped r) := by
          cases hook <;> simp [V2.applyOp, V2.stop, h, V2.Services.update]
        rw [hv]
        exact Or.inr V2.Edge.stop
  | stop_all =>
    cases h : pool name with
    | none => simp [V2.applyOp, V2.stop_all, h, V2.Step]
    | some st =>
      cases st with
      | Stopped r => simp [V2.applyOp, V2.stop_all, h, V2.Step]
      | Running r =>
        have hv : (V2.applyOp name pool V2.Op.stop_all) name
            = some (V2.ServiceState.Stopped r) := by
          simp [V2.applyOp, V2.stop_all, h]
        rw [hv]
        exact Or.inr V2.Edge.stop
  | start hook =>
    cases h : pool name with
    | none => simp [V2.applyOp, V2.start, h, V2.Step]
    | some st =>
      cases st with
      | Running r => simp [V2.applyOp, V2.start, h, V2.Step]
      | Stopped r =>
        cases hook with
        | none =>
          have hv : (V2.applyOp name pool (V2.Op.start none)) name
              = some (V2.ServiceState.Running r) := by
            simp [V2.applyOp, V2.start, h, V2.Services.update]
          rw [hv]
          exact Or.inr V2.Edge.start
        | some e =>
          have hv : (V2.applyOp name pool (V2.Op.start (some e))) name
              = some (V2.ServiceState.Stopped r) := by
            simp [V2.applyOp, V2.start, h, V2.Services.update]
          rw [hv]
          exact Or.inl rfl
  | remove rm =>
    cases h : pool name with
    | none => simp [V2.applyOp, V2.remove, h, V2.Step]
    | some st =>
      cases st with
      | Running r =>
        have hv : (V2.applyOp name pool (V2.Op.remove rm)) name
            = some (V2.ServiceState.Running r) := by
          simp [V2.applyOp, V2.remove, h, V2.Services.update]
        rw [hv]
        exact Or.inl rfl
      | Stopped r =>
        have hv : (V2.applyOp name pool (V2.Op.remove rm)) name = none := by
          cases rm <;> simp [V2.applyOp, V2.remove, h, V2.Services.update]
        rw [hv]
        exact Or.inr V2.Edge.remove

theorem chain_statesOf {R : Type} (name : String) (ops : List (V2.Op R)) :
    ∀ pool : V2.Services R, List.Chain' V2.Step (V2.statesOf name pool ops) := by
  induction ops with
  | nil => intro pool; simp [V2.statesOf, V2.runOps]
  | cons op rest ih =>
    intro pool
    have h1 := step_applyOp name pool op
    have h2 := ih (V2.applyOp name pool op)
    simp only [V2.statesOf, V2.runOps] at h2 ⊢
    exact List.chain'_cons.mpr ⟨h1, h2⟩

/-- C8. Claim: over any sequence of Service Pool operations on one name, the
observed states of that name form a valid walk of the state machine
absent → Running ↔ Stopped → absent (create introduces Running, stop and
start toggle, only a Stopped entry is removed), and a present entry always
holds exactly one of Running or Stopped. `create`, absent from the provided
sources, is modelled from the spec; the other operations are embedded from
src/hive-core/src/service/mod.rs. -/
theorem c8_single_name_state_walk {R : Type} (pool : V2.Services R)
    (name : String) (ops : List (V2.Op R)) :
    List.Chain' V2.Step (V2.statesOf name pool ops)
    ∧ (∀ st, pool name = some st →
        (∃ r, st = V2.ServiceState.Running r) ∨ (∃ r, st = V2.ServiceState.Stopped r)) := by
  refine ⟨chain_statesOf name ops pool, fun st _ => ?_⟩
  cases st with
  | Running r => exact Or.inl ⟨r, rfl⟩
  | Stopped r => exact Or.inr ⟨r, rfl⟩

/-- C8 witness: a full lifecycle on one name — create, a failed start after a
stop, start, stop, remove — walks the machine validly from the empty pool. -/
theorem c8_single_name_state_walk_witness :
    List.Chain' V2.Step (V2.statesOf "svc" (fun _ => (none : Option (V2.ServiceState Unit)))
      [.create () none, .stop none, .start (some "boom"), .start none,
        .stop (some "bye"), .remove (some (.other "disk"))])
    ∧ ((∃ r, V2.ServiceState.Running () = V2.ServiceState.Running r)
        ∨ (∃ r, V2.ServiceState.Running () = V2.ServiceState.Stopped r)) :=
  ⟨(c8_single_name_state_walk (fun _ => (none : Option (V2.ServiceState Unit))) "svc"
      [.create () none, .stop none, .start (some "boom"), .start none,
        .stop (some "bye"), .remove (some (.other "disk"))]).1,
    (c8_single_name_state_walk
      (fun n => if n = "svc" then some (V2.ServiceState.Running ()) else none) "svc" []).2
      (V2.ServiceState.Running ()) (by simp)⟩

end Hive
